import Mathlib

/-!
Verification of the range-aware static HTTP file server in
`serve_example.py` (class `RangeRequestHandler`, function `main`).

The embedding follows the Python source closely:

* `matchBytesRange` embeds `re.match(r'bytes=(\d+)-(\d*)', rh)`: an
  anchored-at-start match (trailing text after the two groups is
  ignored, exactly as `re.match` does), where the first group is a
  non-empty maximal run of decimal digits, followed by a literal `-`,
  followed by a possibly empty maximal run of decimal digits.
* `parseRangeDecision` embeds the branch structure of
  `RangeRequestHandler.send_head` lines 31-53: header absent or falsy
  (empty string) or non-matching gives the full-content path; a match
  with `start >= size` gives the 416 path; otherwise the 206 path with
  `end = int(group 2) if group 2 else size - 1`.
* The request is then run through a small state-plus-exception model
  (`St`, `Res`) whose combinators mirror the `try/except/finally`
  structure of `send_head` and `copyfile`, so that the file-handle
  lifecycle (open, explicit close on 416, close-and-reraise on a header
  write failure, close in `copyfile`'s `finally`) is represented by the
  code structure rather than asserted.
* The port-probing loop of `main` (lines 116-148) is embedded by
  `scanFrom`/`startup`.

Machine integers: Python ints are unbounded, so `Nat`/`Int` model them
exactly. The parsed `start` is a `Nat`; the computed `end` and the
`Content-Length` value are `Int` because `size - 1` and
`end - start + 1` can go negative in Python.
-/

/-- Value of a decimal digit character, as `int()` sees it. -/
def digitVal (c : Char) : Nat := c.toNat - 48

/-- Decimal value of a digit string, embedding Python `int(s)` for a
non-empty string of ASCII digits (leading zeros allowed). -/
def digitsToNat (ds : List Char) : Nat :=
  ds.foldl (fun a c => 10 * a + digitVal c) 0

/-- Maximal run of leading decimal digits and the rest, embedding what a
greedy digit group of the regex consumes. -/
def takeDigits : List Char → List Char × List Char
  | [] => ([], [])
  | c :: cs =>
    if c.isDigit then
      let p := takeDigits cs
      (c :: p.1, p.2)
    else ([], c :: cs)

/-- Literal-prefix stripping, embedding the anchored literal `bytes=` of
the regex. -/
def stripLit : List Char → List Char → Option (List Char)
  | [], s => some s
  | _ :: _, [] => none
  | p :: ps, c :: cs => if c = p then stripLit ps cs else none

/-- Embedding of `re.match(r'bytes=(\d+)-(\d*)', rh)` on the header
text: `some (g1, g2)` holds the two captured groups on a match, `none`
is a failed match. `re.match` anchors at the start only, so any text
after the second group is ignored. -/
def matchBytesRange (s : List Char) : Option (List Char × List Char) :=
  match stripLit ("bytes=".data) s with
  | none => none
  | some r =>
    let p1 := takeDigits r
    if p1.1 = [] then none
    else
      match p1.2 with
      | '-' :: r2 => some (p1.1, (takeDigits r2).1)
      | _ => none

/-- Decision taken by `send_head` lines 31-53 for an open file of the
given size: which of the three response shapes is produced. -/
inductive HeadResult where
  | unsat
  | partialR (start : Nat) (endV : Int)
  | fullR
deriving DecidableEq

/-- Pure core of `RangeRequestHandler.send_head` lines 31-53: header
absent (`None`) or falsy (empty string) or failing the regex falls
through to the 200 branch; on a match, `start = int(group 1)`,
`end = int(group 2) if group 2 else size - 1`, and `start >= size`
selects the 416 branch, otherwise the 206 branch. -/
def parseRangeDecision (size : Nat) (rh : Option String) : HeadResult :=
  match rh with
  | none => .fullR
  | some h =>
    if h.data = [] then .fullR
    else
      match matchBytesRange h.data with
      | none => .fullR
      | some g =>
        let start := digitsToNat g.1
        let endV : Int := if g.2 = [] then (size : Int) - 1 else (digitsToNat g.2 : Int)
        if size ≤ start then .unsat
        else .partialR start endV

/-- Canonical decimal rendering of a natural number (auxiliary, fueled
so that it is structural; fuel `n + 1` always suffices). -/
def natToDigitsAux : Nat → Nat → List Char
  | 0, _ => []
  | fuel + 1, n =>
    if n < 10 then [Char.ofNat (48 + n)]
    else natToDigitsAux fuel (n / 10) ++ [Char.ofNat (48 + n % 10)]

/-- Canonical decimal rendering of a natural number. -/
def natToDigits (n : Nat) : List Char := natToDigitsAux (n + 1) n

/-- The header value `bytes=S-E` with both offsets written in canonical
decimal. -/
def rangeHeaderSE (s e : Nat) : String :=
  ⟨"bytes=".data ++ natToDigits s ++ '-' :: natToDigits e⟩

/-- The header value `bytes=S-` (end omitted) with the offset written in
canonical decimal. -/
def rangeHeaderOpen (s : Nat) : String :=
  ⟨"bytes=".data ++ natToDigits s ++ ['-']⟩

/-- Exception injection for one request: `ok` is a fault-free run,
`headerFault` makes the first status/header write to the client socket
raise (client disconnected while `send_head` is emitting), and
`bodyFault k` makes the write of chunk number `k` in `copyfile` raise. -/
inductive Fault where
  | ok
  | headerFault
  | bodyFault (k : Nat)
deriving DecidableEq

/-- Observable per-request state: the wire-visible response pieces that
the claims mention, plus the file-handle ledger (`fileOpen`: a handle is
currently open; `closes`: number of `close()` calls performed). -/
structure St where
  fileOpen : Bool
  closes : Nat
  status : Option Nat
  contentLength : Option Int
  contentRange : Option String
  body : List Nat
deriving DecidableEq

/-- Result of a computation that can raise: a value, or a propagating
exception. -/
inductive Res (α : Type) where
  | val (a : α)
  | exc
deriving DecidableEq

/-- State before a request is handled. -/
def st0 : St :=
  { fileOpen := false, closes := 0, status := none, contentLength := none,
    contentRange := none, body := [] }

/-- Sequencing with exception propagation (Python statement order). -/
def bindM {α β : Type} (m : St → Res α × St) (f : α → St → Res β × St) :
    St → Res β × St := fun st =>
  match m st with
  | (.exc, st') => (.exc, st')
  | (.val a, st') => f a st'

/-- Return a value without touching the state. -/
def pureM {α : Type} (a : α) : St → Res α × St := fun st => (.val a, st)

/-- Raise an exception. -/
def raiseM {α : Type} : St → Res α × St := fun st => (.exc, st)

/-- Embedding of `open(path, 'rb')` succeeding: a handle is now open. -/
def openFile : St → Res Unit × St := fun st =>
  (.val (), { st with fileOpen := true })

/-- Embedding of `f.close()`. -/
def closeFile : St → Res Unit × St := fun st =>
  (.val (), { st with fileOpen := false, closes := st.closes + 1 })

/-- Embedding of `try: BODY except Exception: f.close(); raise`
(`send_head` lines 27 and 60-62). -/
def tryCatchCloseReraise {α : Type} (m : St → Res α × St) : St → Res α × St :=
  fun st =>
  match m st with
  | (.exc, st') => (.exc, { st' with fileOpen := false, closes := st'.closes + 1 })
  | r => r

/-- Embedding of `try: BODY finally: source.close()` (`copyfile` lines
65 and 78-79). -/
def tryFinallyClose {α : Type} (m : St → Res α × St) : St → Res α × St :=
  fun st =>
  let r := m st
  (r.1, { r.2 with fileOpen := false, closes := r.2.closes + 1 })

/-- Embedding of `self.send_error(code, msg)`: the status line is
written to the client (the standard library's own HTML error page is
outside this repository and not modelled). A `headerFault` makes the
write raise. -/
def sendErrorM (code : Nat) (fault : Fault) : St → Res Unit × St :=
  if fault = .headerFault then raiseM
  else fun st => (.val (), { st with status := some code })

/-- Embedding of `send_head` lines 43-48: status 206 plus the
`Content-Range` and `Content-Length` headers (the `Content-type` and
`Accept-Ranges` headers carry no claim content and are not recorded).
A `headerFault` makes the first write raise, so none of it lands. -/
def emitPartialHeaders (s : Nat) (e : Int) (size : Nat) (fault : Fault) :
    St → Res Unit × St :=
  if fault = .headerFault then raiseM
  else fun st =>
    (.val (), { st with
                status := some 206
                contentRange := some s!"bytes {s}-{e}/{size}"
                contentLength := some (e - s + 1) })

/-- Embedding of `send_head` lines 53-57: status 200 plus
`Content-Length = size`. -/
def emitFullHeaders (size : Nat) (fault : Fault) : St → Res Unit × St :=
  if fault = .headerFault then raiseM
  else fun st =>
    (.val (), { st with
                status := some 200
                contentLength := some (size : Int) })

/-- What `send_head` hands to `do_GET`: `noFile` is `return None`,
`fileWith rr` is `return f` with `self.range_request = rr`. -/
inductive HeadRet where
  | noFile
  | fileWith (rr : Option (Nat × Int))
deriving DecidableEq

/-- Body of the `try` block of `send_head` (lines 27-59): decide the
response shape, emit its headers, on 416 close the file and return
`None`, otherwise return the open file together with the recorded
`range_request`. -/
def sendHeadBody (size : Nat) (rh : Option String) (fault : Fault) :
    St → Res HeadRet × St :=
  match parseRangeDecision size rh with
  | .unsat =>
    bindM (sendErrorM 416 fault) fun _ =>
    bindM closeFile fun _ =>
    pureM .noFile
  | .partialR s e =>
    bindM (emitPartialHeaders s e size fault) fun _ =>
    pureM (.fileWith (some (s, e)))
  | .fullR =>
    bindM (emitFullHeaders size fault) fun _ =>
    pureM (.fileWith none)

/-- Embedding of `RangeRequestHandler.send_head` for a regular file:
if the `open` fails (`fileExists = false`) reply 404 with no handle
opened; otherwise open the file and run the `try` block under the
close-and-reraise handler of lines 60-62. -/
def send_head (fileExists : Bool) (size : Nat) (rh : Option String)
    (fault : Fault) : St → Res HeadRet × St :=
  if fileExists then
    bindM openFile fun _ =>
    tryCatchCloseReraise (sendHeadBody size rh fault)
  else
    bindM (sendErrorM 404 fault) fun _ =>
    pureM .noFile

/-- One turn of the `while remain > 0` loop of `copyfile` lines 70-75,
fueled (the fuel only bounds iteration count; `remain.toNat + 1` always
suffices because every pass either stops or consumes at least one byte
of the budget): read `min(64*1024, remain)` bytes, stop on empty chunk,
write it (raising at chunk number `k` under `bodyFault k`), decrement
`remain` by the chunk length. -/
def copyLoopAux (file : List Nat) :
    Nat → Nat → Int → Fault → Nat → St → Res Unit × St
  | 0, _, _, _, _ => pureM ()
  | fuel + 1, pos, remain, fault, k =>
    if 0 < remain then
      let chunk := (file.drop pos).take (min 65536 remain.toNat)
      if chunk = [] then pureM ()
      else if fault = .bodyFault k then raiseM
      else
        bindM (fun st => (.val (), { st with body := st.body ++ chunk }))
          fun _ =>
        copyLoopAux file fuel (pos + chunk.length) (remain - chunk.length)
          fault (k + 1)
    else pureM ()

/-- The `while remain > 0` loop of `copyfile`, started with adequate
fuel. -/
def copyLoop (file : List Nat) (pos : Nat) (remain : Int) (fault : Fault) :
    St → Res Unit × St :=
  copyLoopAux file (remain.toNat + 1) pos remain fault 0

/-- Embedding of `RangeRequestHandler.copyfile`: when `range_request`
is set, stream `end - start + 1` bytes from offset `start` (the file
was left seeked to `start` by `send_head`); otherwise stream the whole
file (the superclass `copyfile`, i.e. `shutil.copyfileobj`, modelled as
the same chunked loop with budget `size` from offset 0). Either way the
`finally` closes the source. -/
def copyfile (file : List Nat) (rr : Option (Nat × Int)) (fault : Fault) :
    St → Res Unit × St :=
  tryFinallyClose
    (match rr with
     | some se => copyLoop file se.1 (se.2 - se.1 + 1) fault
     | none => copyLoop file 0 (file.length : Int) fault)

/-- Embedding of the `do_GET` driver inherited from
`SimpleHTTPRequestHandler`: call `send_head`; if it returned a file,
stream it with `copyfile`. (The superclass additionally re-closes the
handle in its own `finally`; that second close is library code and a
no-op, and is not modelled.) -/
def do_GET (fileExists : Bool) (file : List Nat) (rh : Option String)
    (fault : Fault) : St → Res Unit × St :=
  bindM (send_head fileExists file.length rh fault) fun ret =>
  match ret with
  | .noFile => pureM ()
  | .fileWith rr => copyfile file rr fault

/-- One full request against a file with the given bytes: run `do_GET`
from the initial state. -/
def handleRequest (fileExists : Bool) (file : List Nat) (rh : Option String)
    (fault : Fault) : Res Unit × St :=
  do_GET fileExists file rh fault st0

/-- Outcome of `ThreadedTCPServer(('', p), Handler)` attempting to bind
port `p`. CPython raises `OSError` for every bind failure; the `except
OSError` arm of `main` classifies it as address-in-use (`errno == 10048`
or the message contains `Address already in use`) or anything else. -/
inductive BindOutcome where
  | success
  | addrInUse
  | osOther
deriving DecidableEq

/-- Result of the port-probing `for` loop of `main` lines 116-145:
`bound p` is a successful bind on `p` (loop `break`s), `fatal p` is an
`OSError` on `p` that is re-raised out of the loop, `exhausted` is the
loop's `else` clause after all candidates failed as address-in-use. -/
inductive ScanResult where
  | bound (p : Nat)
  | fatal (p : Nat)
  | exhausted
deriving DecidableEq

/-- The probing loop itself, from port `p` with `n` candidates left:
returns the list of ports actually probed, in order, together with the
result. Address-in-use continues with the next port; any other
`OSError` is re-raised (a `raise` inside an `except` clause is not
caught by the sibling `except` clause, so it leaves the loop). -/
def scanFrom (o : Nat → BindOutcome) : Nat → Nat → List Nat × ScanResult
  | _, 0 => ([], .exhausted)
  | p, n + 1 =>
    match o p with
    | .success => ([p], .bound p)
    | .addrInUse =>
      let r := scanFrom o (p + 1) n
      (p :: r.1, r.2)
    | .osOther => ([p], .fatal p)

/-- The diagnostic printed by the loop's `else` clause, line 147. -/
def exhaustedMessage (port : Nat) : String :=
  s!"错误: 无法在端口 {port}-{port+19} 范围内启动服务器"

/-- Observable outcome of startup: ports probed in order, the bound
port if any, whether an `OSError` propagated out of `main`, the
`sys.exit` argument if `sys.exit` was called, and the diagnostic
message if one was printed. -/
structure StartupResult where
  probed : List Nat
  boundPort : Option Nat
  fatalRaised : Bool
  exitCall : Option Nat
  message : Option String
deriving DecidableEq

/-- Embedding of the startup port scan of `main` lines 116-148:
`for p in range(port, port + 20)` with the loop body's bind attempt,
and the `else` clause printing the diagnostic and calling
`sys.exit(1)` when the range is exhausted. -/
def startup (o : Nat → BindOutcome) (port : Nat) : StartupResult :=
  let r := scanFrom o port 20
  match r.2 with
  | .bound p =>
    { probed := r.1, boundPort := some p, fatalRaised := false,
      exitCall := none, message := none }
  | .fatal _ =>
    { probed := r.1, boundPort := none, fatalRaised := true,
      exitCall := none, message := none }
  | .exhausted =>
    { probed := r.1, boundPort := none, fatalRaised := false,
      exitCall := some 1, message := some (exhaustedMessage port) }

/-- Occupancy scenario used as a concrete witness: every port below the
given threshold is already in use, the threshold port is free. -/
def occBelow (threshold : Nat) (p : Nat) : BindOutcome :=
  if p < threshold then .addrInUse else .success

/-- Occupancy scenario used as a concrete witness: every port is in
use. -/
def occAll (_ : Nat) : BindOutcome := .addrInUse

/-- Occupancy scenario used as a concrete witness: ports below the
threshold are in use, the threshold port fails with a non-address-in-use
`OSError` (e.g. permission denied). -/
def occFatalAt (threshold : Nat) (p : Nat) : BindOutcome :=
  if p < threshold then .addrInUse else .osOther

/-- `true` when the text does not start with a decimal digit, so a
greedy digit group of the regex consumes nothing of it. -/
def noLeadingDigit : List Char → Bool
  | [] => true
  | c :: _ => !c.isDigit

/-- Facts about the ten digit characters, by computation. -/
theorem digit_char_facts :
    ∀ m, m < 10 → digitVal (Char.ofNat (48 + m)) = m ∧
      (Char.ofNat (48 + m)).isDigit = true := by decide

/-- Appending one character multiplies the accumulated value by ten. -/
theorem digitsToNat_append (ds : List Char) (c : Char) :
    digitsToNat (ds ++ [c]) = 10 * digitsToNat ds + digitVal c := by
  simp [digitsToNat, List.foldl_append]

/-- With fuel above `n`, the rendering of `n` is a non-empty string of
digit characters whose value is `n` again. -/
theorem natToDigitsAux_spec : ∀ fuel n, n < fuel →
    natToDigitsAux fuel n ≠ [] ∧
    (∀ c ∈ natToDigitsAux fuel n, c.isDigit = true) ∧
    digitsToNat (natToDigitsAux fuel n) = n := by
  intro fuel
  induction fuel with
  | zero => intro n h; omega
  | succ f ih =>
    intro n h
    by_cases h10 : n < 10
    · simp only [natToDigitsAux, if_pos h10]
      refine ⟨by simp, ?_, ?_⟩
      · intro c hc
        rw [List.mem_singleton] at hc
        subst hc
        exact (digit_char_facts n h10).2
      · simpa [digitsToNat] using (digit_char_facts n h10).1
    · simp only [natToDigitsAux, if_neg h10]
      have hdiv : n / 10 < f := by
        have := Nat.div_lt_self (show 0 < n by omega) (show 1 < 10 by norm_num)
        omega
      obtain ⟨hne, hdig, hval⟩ := ih (n / 10) hdiv
      have hm : n % 10 < 10 := Nat.mod_lt _ (by norm_num)
      refine ⟨by simp, ?_, ?_⟩
      · intro c hc
        rcases List.mem_append.1 hc with h1 | h1
        · exact hdig c h1
        · rw [List.mem_singleton] at h1
          subst h1
          exact (digit_char_facts (n % 10) hm).2
      · rw [digitsToNat_append, hval, (digit_char_facts (n % 10) hm).1]
        omega

/-- The canonical rendering is non-empty. -/
theorem natToDigits_ne_nil (n : Nat) : natToDigits n ≠ [] :=
  (natToDigitsAux_spec (n + 1) n (by omega)).1

/-- The canonical rendering consists of digit characters. -/
theorem natToDigits_digits (n : Nat) : ∀ c ∈ natToDigits n, c.isDigit = true :=
  (natToDigitsAux_spec (n + 1) n (by omega)).2.1

/-- Parsing the canonical rendering round-trips. -/
theorem digitsToNat_natToDigits (n : Nat) : digitsToNat (natToDigits n) = n :=
  (natToDigitsAux_spec (n + 1) n (by omega)).2.2

/-- A greedy digit group consumes exactly a leading all-digit block when
the following text does not start with a digit. -/
theorem takeDigits_append (ds ts : List Char)
    (hds : ∀ c ∈ ds, c.isDigit = true) (hts : noLeadingDigit ts = true) :
    takeDigits (ds ++ ts) = (ds, ts) := by
  induction ds with
  | nil =>
    cases ts with
    | nil => rfl
    | cons c cs =>
      have : c.isDigit = false := by
        simpa [noLeadingDigit] using hts
      simp [takeDigits, this]
  | cons c cs ih =>
    have hc : c.isDigit = true := hds c (by simp)
    have ih' := ih (fun x hx => hds x (by simp [hx]))
    simp [takeDigits, hc, ih']

/-- The anchored literal strips itself off. -/
theorem stripLit_self (p : List Char) : ∀ s, stripLit p (p ++ s) = some s := by
  induction p with
  | nil => intro s; rfl
  | cons c cs ih => intro s; simp [stripLit, ih]

/-- The regex groups on a header of shape `bytes=` ++ digits ++ `-` ++
digits ++ junk, where the junk does not start with a digit: the two
digit blocks are captured and the junk is ignored. -/
theorem matchBytesRange_groups (d1 d2 t : List Char)
    (h1 : d1 ≠ []) (hd1 : ∀ c ∈ d1, c.isDigit = true)
    (hd2 : ∀ c ∈ d2, c.isDigit = true) (ht : noLeadingDigit t = true) :
    matchBytesRange ("bytes=".data ++ (d1 ++ '-' :: (d2 ++ t))) = some (d1, d2) := by
  have hstep : takeDigits (d1 ++ '-' :: (d2 ++ t)) = (d1, '-' :: (d2 ++ t)) :=
    takeDigits_append d1 ('-' :: (d2 ++ t)) hd1 (by simp [noLeadingDigit])
  have hstep2 : takeDigits (d2 ++ t) = (d2, t) := takeDigits_append d2 t hd2 ht
  have hs := stripLit_self ("bytes=".data) (d1 ++ '-' :: (d2 ++ t))
  simp at hs
  simp [matchBytesRange, hs, hstep, hstep2, h1]

/-- `send_head`'s decision once the regex matched with groups `d1`,
`d2`: the 416 check against `int(d1)` and the `end` default. -/
theorem parseRangeDecision_match (size : Nat) (h : String) (d1 d2 : List Char)
    (hne : h.data ≠ []) (hm : matchBytesRange h.data = some (d1, d2)) :
    parseRangeDecision size (some h) =
      if size ≤ digitsToNat d1 then .unsat
      else .partialR (digitsToNat d1)
        (if d2 = [] then (size : Int) - 1 else (digitsToNat d2 : Int)) := by
  simp [parseRangeDecision, hne, hm]

/-- `send_head`'s decision when the regex fails (or the header is the
empty string): the full-content branch. -/
theorem parseRangeDecision_nomatch (size : Nat) (h : String)
    (hm : matchBytesRange h.data = none) :
    parseRangeDecision size (some h) = .fullR := by
  by_cases hne : h.data = []
  · simp [parseRangeDecision, hne]
  · simp [parseRangeDecision, hne, hm]

/-- The regex groups on the canonical header `bytes=S-E`, possibly
followed by junk not starting with a digit. -/
theorem matchBytesRange_SE (s e : Nat) (t : List Char)
    (ht : noLeadingDigit t = true) :
    matchBytesRange ((rangeHeaderSE s e).data ++ t) =
      some (natToDigits s, natToDigits e) := by
  have h := matchBytesRange_groups (natToDigits s) (natToDigits e) t
    (natToDigits_ne_nil s) (natToDigits_digits s) (natToDigits_digits e) ht
  have hshape : (rangeHeaderSE s e).data ++ t =
      "bytes=".data ++ (natToDigits s ++ '-' :: (natToDigits e ++ t)) := by
    simp [rangeHeaderSE]
  rw [hshape, h]

/-- The regex groups on the canonical header `bytes=S-`: the second
group is empty. -/
theorem matchBytesRange_open (s : Nat) :
    matchBytesRange (rangeHeaderOpen s).data = some (natToDigits s, []) := by
  have h := matchBytesRange_groups (natToDigits s) [] []
    (natToDigits_ne_nil s) (natToDigits_digits s) (by intro c hc; cases hc) rfl
  have hshape : (rangeHeaderOpen s).data =
      "bytes=".data ++ (natToDigits s ++ '-' :: ([] ++ [])) := by
    simp [rangeHeaderOpen]
  rw [hshape, h]

/-- The canonical header data is never empty. -/
theorem rangeHeaderSE_data_ne_nil (s e : Nat) (t : List Char) :
    (rangeHeaderSE s e).data ++ t ≠ [] := by
  simp [rangeHeaderSE]

/-- The open-ended canonical header data is never empty. -/
theorem rangeHeaderOpen_data_ne_nil (s : Nat) : (rangeHeaderOpen s).data ≠ [] := by
  simp [rangeHeaderOpen]

/-- Decision on the canonical header `bytes=S-E`, with junk allowed
after the match: 416 when `S ≥ size`, otherwise the partial branch with
exactly `S` and `E`. -/
theorem parseRangeDecision_SE (size s e : Nat) (t : List Char)
    (ht : noLeadingDigit t = true) :
    parseRangeDecision size (some ⟨(rangeHeaderSE s e).data ++ t⟩) =
      if size ≤ s then .unsat else .partialR s ((e : Nat) : Int) := by
  have hm : matchBytesRange (String.data ⟨(rangeHeaderSE s e).data ++ t⟩) =
      some (natToDigits s, natToDigits e) := matchBytesRange_SE s e t ht
  rw [parseRangeDecision_match size _ _ _ (rangeHeaderSE_data_ne_nil s e t) hm,
    digitsToNat_natToDigits, digitsToNat_natToDigits]
  simp [natToDigits_ne_nil e]

/-- Decision on the canonical header `bytes=S-`: 416 when `S ≥ size`,
otherwise the partial branch with `end = size - 1` (as an integer). -/
theorem parseRangeDecision_open (size s : Nat) :
    parseRangeDecision size (some (rangeHeaderOpen s)) =
      if size ≤ s then .unsat else .partialR s ((size : Int) - 1) := by
  rw [parseRangeDecision_match size _ _ _ (rangeHeaderOpen_data_ne_nil s)
    (matchBytesRange_open s), digitsToNat_natToDigits]
  simp

/-- Taking up to the clipped length is the same as taking the requested
amount. -/
theorem take_min_length {α : Type} (l : List α) (m : Nat) :
    l.take (min m l.length) = l.take m := by
  by_cases h : m ≤ l.length
  · rw [Nat.min_eq_left h]
  · rw [Nat.min_eq_right (by omega), List.take_length,
      List.take_of_length_le (by omega)]

/-- Taking the first `(l.take m).length` elements is the same as taking
`m`. -/
theorem take_length_take {α : Type} (l : List α) (m : Nat) :
    l.take ((l.take m).length) = l.take m := by
  rw [List.length_take]
  exact take_min_length l m

/-- The copy loop never touches the handle ledger: it only writes body
bytes (or raises). -/
theorem copyLoopAux_ledger (file : List Nat) : ∀ fuel pos remain fault k st,
    (copyLoopAux file fuel pos remain fault k st).2.fileOpen = st.fileOpen ∧
    (copyLoopAux file fuel pos remain fault k st).2.closes = st.closes := by
  intro fuel
  induction fuel with
  | zero => intro pos remain fault k st; exact ⟨rfl, rfl⟩
  | succ f ih =>
    intro pos remain fault k st
    by_cases hr : 0 < remain
    · by_cases hc : (file.drop pos).take (min 65536 remain.toNat) = []
      · simp [copyLoopAux, hr, hc, pureM]
      · by_cases hf : fault = .bodyFault k
        · simp [copyLoopAux, hr, hc, hf, raiseM]
        · simp only [copyLoopAux, if_pos hr, if_neg hc, if_neg hf, bindM]
          exact ih _ _ fault (k + 1) _
    · simp [copyLoopAux, hr, pureM]

/-- A fault-free copy loop with adequate fuel delivers exactly
`remain.toNat` bytes starting at `pos` (clipped at end of file: a short
read ends the stream early), and does not raise. -/
theorem copyLoopAux_ok (file : List Nat) : ∀ fuel pos (remain : Int) k st,
    remain.toNat < fuel →
    copyLoopAux file fuel pos remain .ok k st =
      (.val (), { st with body := st.body ++ (file.drop pos).take remain.toNat }) := by
  intro fuel
  induction fuel with
  | zero => intro pos remain k st h; omega
  | succ f ih =>
    intro pos remain k st h
    by_cases hr : 0 < remain
    · by_cases hc : (file.drop pos).take (min 65536 remain.toNat) = []
      · have hd : file.drop pos = [] := by
          rcases List.take_eq_nil_iff.1 hc with h0 | h0
          · omega
          · exact h0
        simp [copyLoopAux, hr, hc, pureM, hd]
      · have hf : ¬ (Fault.ok = Fault.bodyFault k) := by simp
        have hc1 : 0 < ((file.drop pos).take (min 65536 remain.toNat)).length :=
          List.length_pos.2 hc
        have hc2 : ((file.drop pos).take (min 65536 remain.toNat)).length ≤
            remain.toNat := by
          rw [List.length_take]
          omega
        have hrec : (remain -
            (((file.drop pos).take (min 65536 remain.toNat)).length : Int)).toNat < f := by
          omega
        have htn : (remain -
            (((file.drop pos).take (min 65536 remain.toNat)).length : Int)).toNat =
            remain.toNat - ((file.drop pos).take (min 65536 remain.toNat)).length := by
          omega
        have hsplit : (file.drop pos).take remain.toNat =
            (file.drop pos).take (min 65536 remain.toNat) ++
              ((file.drop pos).drop
                (((file.drop pos).take (min 65536 remain.toNat)).length)).take
                (remain.toNat -
                  ((file.drop pos).take (min 65536 remain.toNat)).length) := by
          conv_lhs => rw [show remain.toNat =
            ((file.drop pos).take (min 65536 remain.toNat)).length +
              (remain.toNat -
                ((file.drop pos).take (min 65536 remain.toNat)).length) from by omega]
          rw [List.take_add, take_length_take]
        simp only [copyLoopAux, if_pos hr, if_neg hc, if_neg hf, bindM]
        rw [ih _ _ (k + 1) _ hrec]
        simp only [htn]
        rw [hsplit]
        simp [← List.drop_drop, List.append_assoc]
    · have ht0 : remain.toNat = 0 := by omega
      simp [copyLoopAux, hr, pureM, ht0]

/-- The copy loop as invoked (fuel `remain.toNat + 1`) with no fault:
unconditional form. -/
theorem copyLoop_ok (file : List Nat) (pos : Nat) (remain : Int) (st : St) :
    copyLoop file pos remain .ok st =
      (.val (), { st with body := st.body ++ (file.drop pos).take remain.toNat }) :=
  copyLoopAux_ok file (remain.toNat + 1) pos remain 0 st (by omega)

/-- A fault-free request whose range decision is the 206 branch: the
full observable outcome. -/
theorem handleRequest_partialR (file : List Nat) (rh : Option String)
    (s : Nat) (e : Int)
    (hp : parseRangeDecision file.length rh = .partialR s e) :
    handleRequest true file rh .ok =
      (.val (), { fileOpen := false, closes := 1, status := some 206,
                  contentLength := some (e - s + 1),
                  contentRange := some s!"bytes {s}-{e}/{file.length}",
                  body := (file.drop s).take (e - s + 1).toNat }) := by
  simp [handleRequest, do_GET, send_head, bindM, openFile, tryCatchCloseReraise,
    sendHeadBody, hp, emitPartialHeaders, pureM, copyfile, tryFinallyClose,
    copyLoop_ok, st0]

/-- A fault-free request whose range decision is the 200 branch: the
full observable outcome (the whole file is streamed). -/
theorem handleRequest_full (file : List Nat) (rh : Option String)
    (hp : parseRangeDecision file.length rh = .fullR) :
    handleRequest true file rh .ok =
      (.val (), { fileOpen := false, closes := 1, status := some 200,
                  contentLength := some (file.length : Int),
                  contentRange := none, body := file }) := by
  simp [handleRequest, do_GET, send_head, bindM, openFile, tryCatchCloseReraise,
    sendHeadBody, hp, emitFullHeaders, pureM, copyfile, tryFinallyClose,
    copyLoop_ok, st0]

/-- A fault-free request whose range decision is the 416 branch: status
416, no body streamed, handle closed by the explicit `f.close()`. -/
theorem handleRequest_unsat (file : List Nat) (rh : Option String)
    (hp : parseRangeDecision file.length rh = .unsat) :
    handleRequest true file rh .ok =
      (.val (), { fileOpen := false, closes := 1, status := some 416,
                  contentLength := none, contentRange := none, body := [] }) := by
  simp [handleRequest, do_GET, send_head, bindM, openFile, tryCatchCloseReraise,
    sendHeadBody, hp, sendErrorM, closeFile, pureM, st0]

/-- First-fit: with the first `k` candidates in use and candidate `k`
free (`k` within the window), the scan probes exactly ports
`p .. p + k` in ascending order and binds `p + k`. -/
theorem scanFrom_firstFree (o : Nat → BindOutcome) :
    ∀ k n p, k < n → (∀ i, i < k → o (p + i) = .addrInUse) →
    o (p + k) = .success →
    scanFrom o p n = ((List.range (k + 1)).map (fun i => p + i), .bound (p + k)) := by
  intro k
  induction k with
  | zero =>
    intro n p hn hocc hs
    cases n with
    | zero => omega
    | succ m =>
      have hs' : o p = .success := by simpa using hs
      simp [scanFrom, hs', List.range_succ]
  | succ j ihj =>
    intro n p hn hocc hs
    cases n with
    | zero => omega
    | succ m =>
      have h0 : o p = .addrInUse := by simpa using hocc 0 (by omega)
      have hocc' : ∀ i, i < j → o (p + 1 + i) = .addrInUse := by
        intro i hi
        have := hocc (i + 1) (by omega)
        rw [show p + (i + 1) = p + 1 + i from by omega] at this
        exact this
      have hs' : o (p + 1 + j) = .success := by
        rw [show p + 1 + j = p + (j + 1) from by omega]
        exact hs
      have hrec := ihj m (p + 1) (by omega) hocc' hs'
      have hlist : (List.range (j + 1 + 1)).map (fun i => p + i) =
          p :: (List.range (j + 1)).map (fun i => p + 1 + i) := by
        rw [List.range_succ_eq_map]
        simp only [List.map_cons, List.map_map, Nat.add_zero]
        refine congrArg (p :: ·) ?_
        refine List.map_congr_left ?_
        intro i _
        simp [Function.comp]
        omega
      simp only [scanFrom, h0, hrec, hlist]
      rw [show p + 1 + j = p + (j + 1) from by omega]

/-- Exhaustion: with every candidate in the window in use, the scan
probes all of them in ascending order and reports exhaustion. -/
theorem scanFrom_exhausted (o : Nat → BindOutcome) :
    ∀ n p, (∀ i, i < n → o (p + i) = .addrInUse) →
    scanFrom o p n = ((List.range n).map (fun i => p + i), .exhausted) := by
  intro n
  induction n with
  | zero => intro p _; rfl
  | succ m ihm =>
    intro p hocc
    have h0 : o p = .addrInUse := by simpa using hocc 0 (by omega)
    have hocc' : ∀ i, i < m → o (p + 1 + i) = .addrInUse := by
      intro i hi
      have := hocc (i + 1) (by omega)
      rw [show p + (i + 1) = p + 1 + i from by omega] at this
      exact this
    have hrec := ihm (p + 1) hocc'
    have hlist : (List.range (m + 1)).map (fun i => p + i) =
        p :: (List.range m).map (fun i => p + 1 + i) := by
      rw [List.range_succ_eq_map]
      simp only [List.map_cons, List.map_map, Nat.add_zero]
      refine congrArg (p :: ·) ?_
      refine List.map_congr_left ?_
      intro i _
      simp [Function.comp]
      omega
    simp only [scanFrom, h0, hrec, hlist]

/-- A fatal bind error: with the first `k` candidates in use and
candidate `k` failing with a non-address-in-use `OSError`, the scan
probes exactly ports `p .. p + k` and re-raises at `p + k`; no later
candidate is tried. -/
theorem scanFrom_fatal (o : Nat → BindOutcome) :
    ∀ k n p, k < n → (∀ i, i < k → o (p + i) = .addrInUse) →
    o (p + k) = .osOther →
    scanFrom o p n = ((List.range (k + 1)).map (fun i => p + i), .fatal (p + k)) := by
  intro k
  induction k with
  | zero =>
    intro n p hn hocc hs
    cases n with
    | zero => omega
    | succ m =>
      have hs' : o p = .osOther := by simpa using hs
      simp [scanFrom, hs', List.range_succ]
  | succ j ihj =>
    intro n p hn hocc hs
    cases n with
    | zero => omega
    | succ m =>
      have h0 : o p = .addrInUse := by simpa using hocc 0 (by omega)
      have hocc' : ∀ i, i < j → o (p + 1 + i) = .addrInUse := by
        intro i hi
        have := hocc (i + 1) (by omega)
        rw [show p + (i + 1) = p + 1 + i from by omega] at this
        exact this
      have hs' : o (p + 1 + j) = .osOther := by
        rw [show p + 1 + j = p + (j + 1) from by omega]
        exact hs
      have hrec := ihj m (p + 1) (by omega) hocc' hs'
      have hlist : (List.range (j + 1 + 1)).map (fun i => p + i) =
          p :: (List.range (j + 1)).map (fun i => p + 1 + i) := by
        rw [List.range_succ_eq_map]
        simp only [List.map_cons, List.map_map, Nat.add_zero]
        refine congrArg (p :: ·) ?_
        refine List.map_congr_left ?_
        intro i _
        simp [Function.comp]
        omega
      simp only [scanFrom, h0, hrec, hlist]
      rw [show p + 1 + j = p + (j + 1) from by omega]

/-- The integer rendering of a natural number coincides with its
natural rendering (used for `Content-Range` text). -/
theorem toString_intCast_nat (n : Nat) : toString ((n : Nat) : Int) = toString n := rfl

/-- Decision on the exact canonical header `bytes=S-E` (no junk). -/
theorem parseRangeDecision_SE_exact (size s e : Nat) :
    parseRangeDecision size (some (rangeHeaderSE s e)) =
      if size ≤ s then .unsat else .partialR s ((e : Nat) : Int) := by
  have hm := matchBytesRange_SE s e [] rfl
  rw [List.append_nil] at hm
  have hne : (rangeHeaderSE s e).data ≠ [] := by
    simpa using rangeHeaderSE_data_ne_nil s e []
  rw [parseRangeDecision_match size _ _ _ hne hm, digitsToNat_natToDigits,
    digitsToNat_natToDigits]
  simp [natToDigits_ne_nil e]

/-- C1: for every file and all byte offsets `0 ≤ S ≤ E < size`, a GET
request carrying header `Range: bytes=S-E` yields status 206 with
`Content-Length = E - S + 1` and `Content-Range = bytes S-E/size`, the
streamed body is byte-equal to the file's bytes `S` through `E`
inclusive, and the file handle ends up closed. -/
theorem claim_C1_single_range (file : List Nat) (s e : Nat)
    (hse : s ≤ e) (he : e < file.length) :
    handleRequest true file (some (rangeHeaderSE s e)) .ok =
      (.val (), { fileOpen := false, closes := 1, status := some 206,
                  contentLength := some ((e : Int) - (s : Int) + 1),
                  contentRange := some ("bytes " ++ toString s ++ "-" ++
                    toString e ++ "/" ++ toString file.length),
                  body := (file.drop s).take (e - s + 1) }) := by
  have hns : ¬ file.length ≤ s := by omega
  have hp := parseRangeDecision_SE_exact file.length s e
  rw [if_neg hns] at hp
  rw [handleRequest_partialR file _ s _ hp]
  have h3 : (((e : Nat) : Int) - (s : Nat) + 1).toNat = e - s + 1 := by omega
  simp [h3, toString_intCast_nat, toString]

theorem claim_C1_witness :
    handleRequest true [10, 11, 12, 13, 14] (some (rangeHeaderSE 1 3)) .ok =
      (.val (), { fileOpen := false, closes := 1, status := some 206,
                  contentLength := some 3, contentRange := some "bytes 1-3/5",
                  body := [11, 12, 13] }) :=
  (claim_C1_single_range [10, 11, 12, 13, 14] 1 3 (by decide) (by decide)).trans
    (by decide)

/-- C10: when the explicit end is at or beyond the end of file
(`0 ≤ S < size ≤ E`), the 206 response carries the unclamped headers
`Content-Range = bytes S-E/size` and `Content-Length = E - S + 1`,
while the streamed body is only the bytes from offset `S` to end of
file: the copy loop stops on the short read. -/
theorem claim_C10_unclamped_end (file : List Nat) (s e : Nat)
    (hs : s < file.length) (he : file.length ≤ e) :
    handleRequest true file (some (rangeHeaderSE s e)) .ok =
      (.val (), { fileOpen := false, closes := 1, status := some 206,
                  contentLength := some ((e : Int) - (s : Int) + 1),
                  contentRange := some ("bytes " ++ toString s ++ "-" ++
                    toString e ++ "/" ++ toString file.length),
                  body := file.drop s }) := by
  have hns : ¬ file.length ≤ s := by omega
  have hp := parseRangeDecision_SE_exact file.length s e
  rw [if_neg hns] at hp
  rw [handleRequest_partialR file _ s _ hp]
  have h3 : (((e : Nat) : Int) - (s : Nat) + 1).toNat = e - s + 1 := by omega
  have h4 : (file.drop s).take (e - s + 1) = file.drop s :=
    List.take_of_length_le (by rw [List.length_drop]; omega)
  simp [h3, h4, toString_intCast_nat, toString]

theorem claim_C10_witness :
    handleRequest true [10, 11, 12] (some (rangeHeaderSE 1 9)) .ok =
      (.val (), { fileOpen := false, closes := 1, status := some 206,
                  contentLength := some 9, contentRange := some "bytes 1-9/3",
                  body := [11, 12] }) :=
  (claim_C10_unclamped_end [10, 11, 12] 1 9 (by decide) (by decide)).trans
    (by decide)

/-- C5: for every file and offset `0 ≤ S < size`, the request with
header `bytes=S-` (end omitted) produces exactly the same response —
status, headers, and body — as the request with header
`bytes=S-(size-1)`. -/
theorem claim_C5_open_end_default (file : List Nat) (s : Nat)
    (hs : s < file.length) :
    handleRequest true file (some (rangeHeaderOpen s)) .ok =
    handleRequest true file (some (rangeHeaderSE s (file.length - 1))) .ok := by
  have hns : ¬ file.length ≤ s := by omega
  have hp1 := parseRangeDecision_open file.length s
  rw [if_neg hns] at hp1
  have hp2 := parseRangeDecision_SE_exact file.length s (file.length - 1)
  rw [if_neg hns] at hp2
  have hcast : (((file.length - 1 : Nat)) : Int) = (file.length : Int) - 1 := by
    omega
  rw [hcast] at hp2
  rw [handleRequest_partialR file _ s _ hp1, handleRequest_partialR file _ s _ hp2]

theorem claim_C5_witness :
    handleRequest true [10, 11, 12, 13, 14] (some (rangeHeaderOpen 2)) .ok =
    handleRequest true [10, 11, 12, 13, 14] (some (rangeHeaderSE 2 4)) .ok :=
  claim_C5_open_end_default [10, 11, 12, 13, 14] 2 (by decide)

/-- C3: for every file and offsets with `S ≥ size`, the requests with
headers `bytes=S-E` and `bytes=S-` both yield status 416, stream no
body bytes, and the opened file handle is closed (exactly one close)
before the handler returns. -/
theorem claim_C3_unsatisfiable (file : List Nat) (s e : Nat)
    (hs : file.length ≤ s) :
    handleRequest true file (some (rangeHeaderSE s e)) .ok =
      (.val (), { fileOpen := false, closes := 1, status := some 416,
                  contentLength := none, contentRange := none, body := [] }) ∧
    handleRequest true file (some (rangeHeaderOpen s)) .ok =
      (.val (), { fileOpen := false, closes := 1, status := some 416,
                  contentLength := none, contentRange := none, body := [] }) := by
  constructor
  · apply handleRequest_unsat
    rw [parseRangeDecision_SE_exact, if_pos hs]
  · apply handleRequest_unsat
    rw [parseRangeDecision_open, if_pos hs]

theorem claim_C3_witness :
    handleRequest true [10, 11, 12] (some (rangeHeaderSE 5 9)) .ok =
      (.val (), { fileOpen := false, closes := 1, status := some 416,
                  contentLength := none, contentRange := none, body := [] }) ∧
    handleRequest true [10, 11, 12] (some (rangeHeaderOpen 5)) .ok =
      (.val (), { fileOpen := false, closes := 1, status := some 416,
                  contentLength := none, contentRange := none, body := [] }) :=
  claim_C3_unsatisfiable [10, 11, 12] 5 9 (by decide)

/-- C6: for every existing regular file, a request with no `Range`
header yields status 200 with `Content-Length` equal to the file's
size and streams a body byte-equal to the entire file. -/
theorem claim_C6_no_range_header (file : List Nat) :
    handleRequest true file none .ok =
      (.val (), { fileOpen := false, closes := 1, status := some 200,
                  contentLength := some (file.length : Int),
                  contentRange := none, body := file }) :=
  handleRequest_full file none rfl

/-- `fileOpen` projection of the copy loop (simp form of the ledger
lemma). -/
theorem copyLoopAux_fileOpen (file : List Nat) (fuel pos : Nat) (remain : Int)
    (fault : Fault) (k : Nat) (st : St) :
    (copyLoopAux file fuel pos remain fault k st).2.fileOpen = st.fileOpen :=
  (copyLoopAux_ledger file fuel pos remain fault k st).1

/-- `closes` projection of the copy loop (simp form of the ledger
lemma). -/
theorem copyLoopAux_closes (file : List Nat) (fuel pos : Nat) (remain : Int)
    (fault : Fault) (k : Nat) (st : St) :
    (copyLoopAux file fuel pos remain fault k st).2.closes = st.closes :=
  (copyLoopAux_ledger file fuel pos remain fault k st).2

/-- C2 counterexample: the multi-range header `bytes=0-5,10-15` is
present and does not match the documented grammar in full, yet the
parser does not fall back to Full: `re.match` accepts its prefix
`bytes=0-5` and the server answers 206 for that first range, not a
full-content 200. -/
theorem claim_C2_counterexample :
    parseRangeDecision 20 (some "bytes=0-5,10-15") = .partialR 0 5 ∧
    (handleRequest true (List.range 20) (some "bytes=0-5,10-15") .ok).2.status
      = some 206 ∧
    ¬ ((handleRequest true (List.range 20) (some "bytes=0-5,10-15") .ok).2.status
      = some 200) := by decide

/-- C2 amended: a present `Range` header that does not match
`bytes=<digits>-<digits>?` at its start yields the full-content 200
response; but a header whose prefix does match — such as the
multi-range form `bytes=a-b,c-d` — is handled exactly like the single
range of that prefix, junk after the matched part being ignored. -/
theorem claim_C2_prefix_match_fallback :
    (∀ (file : List Nat) (h : String), matchBytesRange h.data = none →
      handleRequest true file (some h) .ok =
        (.val (), { fileOpen := false, closes := 1, status := some 200,
                    contentLength := some (file.length : Int),
                    contentRange := none, body := file })) ∧
    (∀ (file : List Nat) (s e : Nat) (t : List Char),
      noLeadingDigit t = true →
      handleRequest true file (some ⟨(rangeHeaderSE s e).data ++ t⟩) .ok =
      handleRequest true file (some (rangeHeaderSE s e)) .ok) := by
  constructor
  · intro file h hm
    exact handleRequest_full file (some h) (parseRangeDecision_nomatch _ h hm)
  · intro file s e t ht
    have hp1 := parseRangeDecision_SE file.length s e t ht
    have hp2 := parseRangeDecision_SE_exact file.length s e
    by_cases hle : file.length ≤ s
    · rw [handleRequest_unsat _ _ (by rw [hp1, if_pos hle]),
        handleRequest_unsat _ _ (by rw [hp2, if_pos hle])]
    · rw [handleRequest_partialR _ _ s _ (by rw [hp1, if_neg hle]),
        handleRequest_partialR _ _ s _ (by rw [hp2, if_neg hle])]

theorem claim_C2_prefix_match_fallback_witness :
    handleRequest true [5, 6] (some "bytes=x") .ok =
      (.val (), { fileOpen := false, closes := 1, status := some 200,
                  contentLength := some 2, contentRange := none,
                  body := [5, 6] }) ∧
    handleRequest true [7, 8, 9]
        (some ⟨(rangeHeaderSE 0 1).data ++ ",3-4".data⟩) .ok =
    handleRequest true [7, 8, 9] (some (rangeHeaderSE 0 1)) .ok := by
  constructor
  · exact (claim_C2_prefix_match_fallback.1 [5, 6] "bytes=x" (by decide)).trans
      (by decide)
  · exact claim_C2_prefix_match_fallback.2 [7, 8, 9] 0 1 (",3-4".data) (by decide)

/-- C4 (claimed invariant `0 ≤ start ≤ end` fails): the header
`bytes=5-2` on a ten-byte file is accepted by the grammar with
`start = 5 > end = 2` (no validation of `start ≤ end` is performed),
and the server answers 206 with `Content-Length = -2` and
`Content-Range = bytes 5-2/10`, streaming nothing. -/
theorem claim_C4_start_le_end_violated :
    parseRangeDecision 10 (some "bytes=5-2") = .partialR 5 2 ∧
    handleRequest true (List.range 10) (some "bytes=5-2") .ok =
      (.val (), { fileOpen := false, closes := 1, status := some 206,
                  contentLength := some (-2),
                  contentRange := some "bytes 5-2/10", body := [] }) := by decide

/-- C9: on every control-flow exit of a single request — 404, 416,
completed 200/206 stream, short read (file shorter than the requested
budget), and any exception raised while emitting status or headers or
while writing body chunks to the client socket — no file handle remains
open when the handler finishes, and the handle (when one was opened at
all) was closed exactly once. -/
theorem claim_C9_handle_closed_on_every_exit (fileExists : Bool)
    (file : List Nat) (rh : Option String) (fault : Fault) :
    (handleRequest fileExists file rh fault).2.fileOpen = false ∧
    (handleRequest fileExists file rh fault).2.closes =
      (if fileExists then 1 else 0) := by
  cases fileExists with
  | false =>
    by_cases hf : fault = .headerFault
    · simp [handleRequest, do_GET, send_head, bindM, sendErrorM, hf, raiseM,
        pureM, st0]
    · simp [handleRequest, do_GET, send_head, bindM, sendErrorM, hf, pureM, st0]
  | true =>
    by_cases hf : fault = .headerFault
    · cases hp : parseRangeDecision file.length rh with
      | unsat =>
        simp [handleRequest, do_GET, send_head, bindM, openFile,
          tryCatchCloseReraise, sendHeadBody, hp, sendErrorM, hf, raiseM, st0]
      | partialR s e =>
        simp [handleRequest, do_GET, send_head, bindM, openFile,
          tryCatchCloseReraise, sendHeadBody, hp, emitPartialHeaders, hf,
          raiseM, st0]
      | fullR =>
        simp [handleRequest, do_GET, send_head, bindM, openFile,
          tryCatchCloseReraise, sendHeadBody, hp, emitFullHeaders, hf, raiseM,
          st0]
    · cases hp : parseRangeDecision file.length rh with
      | unsat =>
        simp [handleRequest, do_GET, send_head, bindM, openFile,
          tryCatchCloseReraise, sendHeadBody, hp, sendErrorM, hf, closeFile,
          pureM, st0]
      | partialR s e =>
        simp [handleRequest, do_GET, send_head, bindM, openFile,
          tryCatchCloseReraise, sendHeadBody, hp, emitPartialHeaders, hf,
          pureM, copyfile, tryFinallyClose, copyLoop, copyLoopAux_fileOpen,
          copyLoopAux_closes, st0]
      | fullR =>
        simp [handleRequest, do_GET, send_head, bindM, openFile,
          tryCatchCloseReraise, sendHeadBody, hp, emitFullHeaders, hf, pureM,
          copyfile, tryFinallyClose, copyLoop, copyLoopAux_fileOpen,
          copyLoopAux_closes, st0]

/-- C7: startup probes the candidate ports `P, P+1, …, P+19` in
ascending order and binds the first one not already in use (first
conjunct; with `P..P+18` occupied this is the instance `k = 19`,
binding `P+19`); when all twenty candidates are occupied it prints the
diagnostic naming the scanned range `P-(P+19)` and calls
`sys.exit(1)` (second conjunct). -/
theorem claim_C7_port_probing (o : Nat → BindOutcome) (P : Nat) :
    (∀ k, k < 20 → (∀ i, i < k → o (P + i) = .addrInUse) →
      o (P + k) = .success →
      startup o P = { probed := (List.range (k + 1)).map (fun i => P + i),
                      boundPort := some (P + k), fatalRaised := false,
                      exitCall := none, message := none }) ∧
    ((∀ i, i < 20 → o (P + i) = .addrInUse) →
      startup o P = { probed := (List.range 20).map (fun i => P + i),
                      boundPort := none, fatalRaised := false,
                      exitCall := some 1,
                      message := some (exhaustedMessage P) }) := by
  constructor
  · intro k hk hocc hs
    have h := scanFrom_firstFree o k 20 P hk hocc hs
    simp [startup, h]
  · intro hocc
    have h := scanFrom_exhausted o 20 P hocc
    simp [startup, h]

theorem claim_C7_witness :
    startup (occBelow 5519) 5500 =
      { probed := [5500, 5501, 5502, 5503, 5504, 5505, 5506, 5507, 5508, 5509,
                   5510, 5511, 5512, 5513, 5514, 5515, 5516, 5517, 5518, 5519],
        boundPort := some 5519, fatalRaised := false, exitCall := none,
        message := none } ∧
    startup occAll 5500 =
      { probed := [5500, 5501, 5502, 5503, 5504, 5505, 5506, 5507, 5508, 5509,
                   5510, 5511, 5512, 5513, 5514, 5515, 5516, 5517, 5518, 5519],
        boundPort := none, fatalRaised := false, exitCall := some 1,
        message := some "错误: 无法在端口 5500-5519 范围内启动服务器" } := by
  constructor
  · exact ((claim_C7_port_probing (occBelow 5519) 5500).1 19 (by decide)
      (by decide) (by decide)).trans (by decide)
  · exact ((claim_C7_port_probing occAll 5500).2 (by decide)).trans (by decide)

/-- C8: during the port scan, a bind failure other than
address-already-in-use (e.g. permission denied) aborts the scan at that
port and propagates out of startup: the ports after it are never
probed, no port is bound, and no exhaustion diagnostic is printed. -/
theorem claim_C8_fatal_bind_error (o : Nat → BindOutcome) (P k : Nat)
    (hk : k < 20) (hocc : ∀ i, i < k → o (P + i) = .addrInUse)
    (hs : o (P + k) = .osOther) :
    startup o P = { probed := (List.range (k + 1)).map (fun i => P + i),
                    boundPort := none, fatalRaised := true,
                    exitCall := none, message := none } := by
  have h := scanFrom_fatal o k 20 P hk hocc hs
  simp [startup, h]

theorem claim_C8_witness :
    startup (occFatalAt 5503) 5500 =
      { probed := [5500, 5501, 5502, 5503], boundPort := none,
        fatalRaised := true, exitCall := none, message := none } :=
  (claim_C8_fatal_bind_error (occFatalAt 5503) 5500 3 (by decide) (by decide)
    (by decide)).trans (by decide)
